import Mathlib

/-!
Verification of the alert filter and query-key derivation core
(`src/alerts/filter.go` of the openstorage repository).

Embedding conventions:
* Store keys are modelled as lists of path segments (`Key := List String`):
  `filepath.Join key seg` appends one segment, `filepath.Split` followed by
  `strings.Trim _ "/"` drops the last segment.  Each key component (resource
  type rendering, hex alert type, resource id) is one atomic segment.
* Go's `interface{}` payload is modelled by the closed sum `Value` of all
  payload shapes the code inspects; a payload built from a different
  constructor than the one a type assertion requires models a failing
  assertion.
* `FilterType` is a Go `int`; the eight registry constants are `0..7` (iota).
* Machine integers (`int64`) are modelled as `Int`; no arithmetic in this code
  can overflow-wrap since only comparisons and formatting are performed.
* Fallible operations return `Except Err _`; `Err.typeAssertionError` is the
  spec's ValueShapeMismatch and `Err.invalidFilterType` the spec's
  UnknownFilterKind.
-/

namespace alerts

/-- Errors of the alerts package.  `typeAssertionError` and
`invalidFilterType` are the two error values raised by `filter.Match` and
`getKeysFromFilters`; `other` stands for any distinct caller-supplied error a
Custom predicate may return. -/
inductive Err where
  | typeAssertionError
  | invalidFilterType
  | other (msg : String)
deriving DecidableEq

instance {ε α : Type} [DecidableEq ε] [DecidableEq α] : DecidableEq (Except ε α) := fun a b =>
  match a, b with
  | .error e, .error e' =>
      if h : e = e' then .isTrue (by rw [h]) else .isFalse (fun hh => h (Except.error.inj hh))
  | .error _, .ok _ => .isFalse (fun hh => Except.noConfusion hh)
  | .ok _, .error _ => .isFalse (fun hh => Except.noConfusion hh)
  | .ok x, .ok y =>
      if h : x = y then .isTrue (by rw [h]) else .isFalse (fun hh => h (Except.ok.inj hh))

/-- Modelled from the spec: the resource-type enumeration of the external
`api` package (the `api` package is not under src); the spec's examples render
the Volume value as "Volume". -/
inductive ResourceType where
  | none
  | volume
  | node
  | cluster
  | drive
deriving DecidableEq

/-- Modelled from the spec: canonical string rendering of a resource type
(`api.ResourceType.String()` of the external `api` package). -/
def rtString : ResourceType → String
  | .none => "None"
  | .volume => "Volume"
  | .node => "Node"
  | .cluster => "Cluster"
  | .drive => "Drive"

/-- Alert record fields consumed by this core (`api.Alert` of the external
`api` package has further opaque payload fields irrelevant to filtering; the
timestamp is kept as its seconds value, the only part the code reads). -/
structure Alert where
  alertType : Int
  resource : ResourceType
  resourceId : String
  count : Int
  timestampSeconds : Int
deriving DecidableEq

/-- timeZone of filter.go: a time window.  `time.Time` is used by the code
only through `.Unix()`, so each endpoint is modelled by its Unix seconds. -/
structure timeZone where
  start : Int
  stop : Int
deriving DecidableEq

/-- alertInfo of filter.go. -/
structure alertInfo where
  alertType : Int
  resourceType : ResourceType
  resourceID : String
deriving DecidableEq

/-- Runtime-typed filter payload (the Go `interface{}` value), restricted to
the shapes the code ever inspects.  A Custom predicate returns `(bool, error)`
in Go; the error case is modelled by `Except.error` (callers treat a non-nil
error as failure and ignore the accompanying bool). -/
inductive Value where
  | vFunc (p : Alert → Except Err Bool)
  | vTimeZone (tz : timeZone)
  | vInt64 (n : Int)
  | vString (s : String)
  | vResourceType (rt : ResourceType)
  | vAlertInfo (ai : alertInfo)

/-- FilterType of filter.go (a Go `int`). -/
abbrev FilterType := Nat

def CustomFilter : FilterType := 0

def TimeFilter : FilterType := 1

def AlertTypeFilter : FilterType := 2

def ResourceIDFilter : FilterType := 3

def CountFilter : FilterType := 4

def QueryResourceTypeFilter : FilterType := 5

def QueryAlertTypeFilter : FilterType := 6

def QueryResourceIDFilter : FilterType := 7

/-- filter struct of filter.go. -/
structure filter where
  filterType : FilterType
  value : Value

def filter.GetFilterType (f : filter) : FilterType := f.filterType

def filter.GetValue (f : filter) : Value := f.value

/-- filter.Match of filter.go: evaluate one filter against one alert.  The Go
switch statement is rendered as a chain of equality tests on the (distinct)
registry constants, in source order, with the default branch last. -/
def filter.Match (f : filter) (alert : Alert) : Except Err Bool :=
  if f.filterType = CustomFilter then
    match f.value with
    | .vFunc v => v alert
    | _ => .error .typeAssertionError
  else if f.filterType = TimeFilter then
    match f.value with
    | .vTimeZone v =>
        if v.start ≤ alert.timestampSeconds ∧ alert.timestampSeconds ≤ v.stop then
          .ok true
        else
          .ok false
    | _ => .error .typeAssertionError
  else if f.filterType = AlertTypeFilter then
    match f.value with
    | .vInt64 v => if alert.alertType = v then .ok true else .ok false
    | _ => .error .typeAssertionError
  else if f.filterType = ResourceIDFilter then
    match f.value with
    | .vString v => if alert.resourceId = v then .ok true else .ok false
    | _ => .error .typeAssertionError
  else if f.filterType = CountFilter then
    match f.value with
    | .vInt64 v => if alert.count = v then .ok true else .ok false
    | _ => .error .typeAssertionError
  else if f.filterType = QueryResourceTypeFilter then
    match f.value with
    | .vResourceType v => if alert.resource = v then .ok true else .ok false
    | _ => .error .typeAssertionError
  else if f.filterType = QueryAlertTypeFilter then
    match f.value with
    | .vAlertInfo v =>
        if alert.alertType = v.alertType ∧ alert.resource = v.resourceType then
          .ok true
        else
          .ok false
    | _ => .error .typeAssertionError
  else if f.filterType = QueryResourceIDFilter then
    match f.value with
    | .vAlertInfo v =>
        if alert.alertType = v.alertType ∧ alert.resource = v.resourceType ∧
            alert.resourceId = v.resourceID then
          .ok true
        else
          .ok false
    | _ => .error .typeAssertionError
  else
    .error .invalidFilterType

/-- A store key, modelled as its list of path segments. -/
abbrev Key := List String

/-- Modelled from the spec: the fixed alert-namespace root prefix (the
`KvdbKey` constant is defined in the alerts package outside
src/alerts/filter.go); per the kvdb tree comment in filter.go the root
segment is "alerts". -/
def KvdbKey : Key := ["alerts"]

/-- strconv.FormatInt with base 16: lowercase hex digits, a "-" sign for
negative values. -/
def hexInt (n : Int) : String :=
  if n < 0 then "-" ++ String.mk (Nat.toDigits 16 n.natAbs)
  else String.mk (Nat.toDigits 16 n.toNat)

/-- The per-filter key computation of the getKeysFromFilters loop body:
starting from `KvdbKey`, the three query-capable filter types join further
segments after asserting their payload shape; every other filter type leaves
the key at `KvdbKey`. -/
def candidateKey (f : filter) : Except Err Key :=
  if f.filterType = QueryResourceTypeFilter then
    match f.value with
    | .vResourceType v => .ok (KvdbKey ++ [rtString v])
    | _ => .error .typeAssertionError
  else if f.filterType = QueryAlertTypeFilter then
    match f.value with
    | .vAlertInfo v => .ok (KvdbKey ++ [rtString v.resourceType, hexInt v.alertType])
    | _ => .error .typeAssertionError
  else if f.filterType = QueryResourceIDFilter then
    match f.value with
    | .vAlertInfo v =>
        .ok (KvdbKey ++ [rtString v.resourceType, hexInt v.alertType, v.resourceID])
    | _ => .error .typeAssertionError
  else
    .ok KvdbKey

/-- One iteration of the getKeysFromFilters loop: compute the filter's key,
then store it unless its parent path (`filepath.Split` + trim, i.e. the key
without its last segment) is already stored. -/
def addKey (keys : Finset Key) (f : filter) : Except Err (Finset Key) :=
  match candidateKey f with
  | .error e => .error e
  | .ok key => if key.dropLast ∈ keys then .ok keys else .ok (insert key keys)

/-- Insert one filter into a list sorted by ascending filter type. -/
def insertSorted (f : filter) : List filter → List filter
  | [] => [f]
  | g :: gs =>
      if f.filterType ≤ g.filterType then f :: g :: gs else g :: insertSorted f gs

/-- sort.Sort(Filters(filters)): an unspecified-order comparison sort by the
Less method `fs[i].GetFilterType() < fs[j].GetFilterType()`; modelled by
insertion sort with the same ordering (the derivation result is proved below
not to depend on the order of filters of equal type). -/
def sortFilters : List filter → List filter
  | [] => []
  | f :: fs => insertSorted f (sortFilters fs)

/-- The deletion phase of getKeysFromFilters: remove every key some other
stored key is a proper ancestor path of (the Go loop walks all proper
prefixes of each key, down to the empty path, and marks the key for deletion
when any of them is stored). -/
def minimize (keys : Finset Key) : Finset Key :=
  keys.filter fun k => ∀ a ∈ keys, a <+: k → a = k

/-- getKeysFromFilters of filter.go: sort the filters, fold the loop body over
them (or store just the root key when no filters are given), then apply the
deletion phase. -/
def getKeysFromFilters (filters : List filter) : Except Err (Finset Key) :=
  match
    (if 0 < filters.length then
      (sortFilters filters).foldlM addKey (∅ : Finset Key)
    else
      .ok {KvdbKey}) with
  | .error e => .error e
  | .ok keys => .ok (minimize keys)

/-- The query-capable filter types: exactly the three types that narrow the
kvdb key in getKeysFromFilters. -/
def isQueryCapable (f : filter) : Prop :=
  f.filterType = QueryResourceTypeFilter ∨ f.filterType = QueryAlertTypeFilter ∨
    f.filterType = QueryResourceIDFilter

instance (f : filter) : Decidable (isQueryCapable f) := by
  unfold isQueryCapable; infer_instance

/-- The list of candidate keys the loop computes, one per filter whose payload
assertion succeeds, in filter order. -/
def candList (fs : List filter) : List Key :=
  fs.filterMap fun f => (candidateKey f).toOption

/-- The set of candidate keys of a filter list. -/
def candSet (fs : List filter) : Finset Key :=
  (candList fs).toFinset

/-- The registry of filter types: the eight declared constants. -/
def isRegisteredType (t : FilterType) : Prop :=
  t = CustomFilter ∨ t = TimeFilter ∨ t = AlertTypeFilter ∨ t = ResourceIDFilter ∨
    t = CountFilter ∨ t = QueryResourceTypeFilter ∨ t = QueryAlertTypeFilter ∨
    t = QueryResourceIDFilter

instance (t : FilterType) : Decidable (isRegisteredType t) := by
  unfold isRegisteredType; infer_instance

/-- The payload shape each registered filter type requires: the type assertion
filter.Match performs for it.  Types outside the registry assert nothing (Match
rejects them before looking at the payload). -/
def conformsTo (t : FilterType) (v : Value) : Bool :=
  if t = CustomFilter then
    match v with | .vFunc _ => true | _ => false
  else if t = TimeFilter then
    match v with | .vTimeZone _ => true | _ => false
  else if t = AlertTypeFilter then
    match v with | .vInt64 _ => true | _ => false
  else if t = ResourceIDFilter then
    match v with | .vString _ => true | _ => false
  else if t = CountFilter then
    match v with | .vInt64 _ => true | _ => false
  else if t = QueryResourceTypeFilter then
    match v with | .vResourceType _ => true | _ => false
  else if t = QueryAlertTypeFilter then
    match v with | .vAlertInfo _ => true | _ => false
  else if t = QueryResourceIDFilter then
    match v with | .vAlertInfo _ => true | _ => false
  else true

/-- The store key schema as the derivation code lays it out: root, resource
type, alert type rendered in hex, resource id, and the "data" leaf. -/
def storeKeyPath (rt : ResourceType) (aty : Int) (rid : String) : Key :=
  KvdbKey ++ [rtString rt, hexInt aty, rid, "data"]

/-- The store key schema exactly as the spec words it, with the resource-id
component listed before the alert-type component; defined from the spec's
words for comparison with the layout the code builds. -/
def specOrderKeyPath (rt : ResourceType) (rid : String) (aty : Int) : Key :=
  KvdbKey ++ [rtString rt, rid, hexInt aty, "data"]

/-- Modelled from the spec: the full store key path of one alert (the code
that writes alerts is outside src).  The spec's schema sentence lists resource
id before alert type, but the derivation code in src/alerts/filter.go builds
keys with the alert-type component above the resource-id component, and its
ordering contract (query filter types sorted by ascending tree depth) only
works with that layout; this definition follows the code's layout.  See
specAlertKeyPath for the spec's literal order. -/
def alertKeyPath (a : Alert) : Key :=
  storeKeyPath a.resource a.alertType a.resourceId

/-- Modelled from the spec: the full store key path of one alert following the
spec's literal schema wording (resource id before alert type). -/
def specAlertKeyPath (a : Alert) : Key :=
  specOrderKeyPath a.resource a.resourceId a.alertType

/-- Concrete QueryResourceType(Volume) filter of the spec's scenarios. -/
def qrtVolume : filter := ⟨QueryResourceTypeFilter, .vResourceType .volume⟩

/-- Concrete QueryAlertType{alertType:5, resourceType:Volume} filter of the
spec's scenarios. -/
def qatVolume5 : filter := ⟨QueryAlertTypeFilter, .vAlertInfo ⟨5, .volume, ""⟩⟩

/-- Concrete QueryResourceID{alertType:5, resourceType:Volume,
resourceID:"vol1"} filter. -/
def qridVolume5 : filter := ⟨QueryResourceIDFilter, .vAlertInfo ⟨5, .volume, "vol1"⟩⟩

/-- A concrete alert with alert type 5, Volume resource type and resource id
"vol1". -/
def alertVol5 : Alert := ⟨5, .volume, "vol1", 1, 0⟩

/-- A concrete Custom filter whose predicate always accepts. -/
def customTrue : filter := ⟨CustomFilter, .vFunc fun _ => .ok true⟩

/-- A concrete Custom filter whose caller-supplied predicate itself returns
the ValueShapeMismatch error value. -/
def customShapeErr : filter :=
  ⟨CustomFilter, .vFunc fun _ => .error .typeAssertionError⟩

theorem except_bind_ok {ε α β : Type} (a : α) (g : α → Except ε β) :
    (Except.ok a >>= g) = g a := rfl

theorem except_bind_error {ε α β : Type} (e : ε) (g : α → Except ε β) :
    ((Except.error e : Except ε α) >>= g) = .error e := rfl

theorem mem_candSet {fs : List filter} {c : Key} :
    c ∈ candSet fs ↔ ∃ f ∈ fs, candidateKey f = .ok c := by
  simp only [candSet, List.mem_toFinset, candList, List.mem_filterMap]
  constructor
  · rintro ⟨f, hf, hc⟩
    cases h : candidateKey f with
    | error e => rw [h] at hc; simp [Except.toOption] at hc
    | ok k =>
        rw [h] at hc
        simp [Except.toOption] at hc
        exact ⟨f, hf, by rw [h, hc]⟩
  · rintro ⟨f, hf, hc⟩
    exact ⟨f, hf, by rw [hc]; rfl⟩

theorem candSet_cons_ok {f : filter} {fs : List filter} {c : Key}
    (h : candidateKey f = .ok c) : candSet (f :: fs) = insert c (candSet fs) := by
  simp [candSet, candList, List.filterMap_cons, h, Except.toOption]

theorem candSet_perm {fs gs : List filter} (h : fs.Perm gs) : candSet fs = candSet gs := by
  apply Finset.ext
  intro c
  simp only [mem_candSet]
  constructor
  · rintro ⟨f, hf, hc⟩; exact ⟨f, h.mem_iff.mp hf, hc⟩
  · rintro ⟨f, hf, hc⟩; exact ⟨f, h.mem_iff.mpr hf, hc⟩

theorem candidateKey_error {f : filter} {e : Err} (h : candidateKey f = .error e) :
    e = .typeAssertionError := by
  unfold candidateKey at h
  split_ifs at h <;> (try (cases hv : f.value <;> rw [hv] at h)) <;> simp_all

theorem candidateKey_ne_nil {f : filter} {k : Key} (h : candidateKey f = .ok k) :
    k ≠ [] := by
  unfold candidateKey at h
  split_ifs at h <;> (try (cases hv : f.value <;> rw [hv] at h)) <;>
    simp_all [KvdbKey] <;> simp [← h, KvdbKey]

theorem candidateKey_qrt {f : filter} (h : f.filterType = QueryResourceTypeFilter) :
    candidateKey f = match f.value with
      | .vResourceType v => .ok (KvdbKey ++ [rtString v])
      | _ => .error .typeAssertionError := by
  simp [candidateKey, h, QueryResourceTypeFilter, QueryAlertTypeFilter,
    QueryResourceIDFilter]

theorem candidateKey_qat {f : filter} (h : f.filterType = QueryAlertTypeFilter) :
    candidateKey f = match f.value with
      | .vAlertInfo v => .ok (KvdbKey ++ [rtString v.resourceType, hexInt v.alertType])
      | _ => .error .typeAssertionError := by
  simp [candidateKey, h, QueryResourceTypeFilter, QueryAlertTypeFilter,
    QueryResourceIDFilter]

theorem candidateKey_qrid {f : filter} (h : f.filterType = QueryResourceIDFilter) :
    candidateKey f = match f.value with
      | .vAlertInfo v =>
          .ok (KvdbKey ++ [rtString v.resourceType, hexInt v.alertType, v.resourceID])
      | _ => .error .typeAssertionError := by
  simp [candidateKey, h, QueryResourceTypeFilter, QueryAlertTypeFilter,
    QueryResourceIDFilter]

theorem candidateKey_not_qc {f : filter} (h : ¬ isQueryCapable f) :
    candidateKey f = .ok KvdbKey := by
  simp only [isQueryCapable, not_or] at h
  obtain ⟨h1, h2, h3⟩ := h
  simp [candidateKey, h1, h2, h3]

theorem foldlM_addKey_sub : ∀ (l : List filter) (S T : Finset Key),
    List.foldlM addKey S l = .ok T → S ⊆ T ∧ T ⊆ S ∪ candSet l := by
  intro l
  induction l with
  | nil =>
      intro S T h
      simp only [List.foldlM_nil, pure, Except.pure, Except.ok.injEq] at h
      subst h
      exact ⟨Finset.Subset.refl S, Finset.subset_union_left⟩
  | cons f l ih =>
      intro S T h
      rw [List.foldlM_cons] at h
      cases hstep : addKey S f with
      | error e => rw [hstep, except_bind_error] at h; exact absurd h (by simp)
      | ok S₁ =>
          rw [hstep, except_bind_ok] at h
          obtain ⟨h1, h2⟩ := ih S₁ T h
          unfold addKey at hstep
          cases hc : candidateKey f with
          | error e => rw [hc] at hstep; exact absurd hstep (by simp)
          | ok c =>
              rw [hc] at hstep
              rw [candSet_cons_ok hc]
              have hS₁ : S₁ = S ∨ S₁ = insert c S := by
                by_cases hd : c.dropLast ∈ S
                · left; simp only [if_pos hd, Except.ok.injEq] at hstep; exact hstep.symm
                · right; simp only [if_neg hd, Except.ok.injEq] at hstep; exact hstep.symm
              rcases hS₁ with rfl | rfl
              · refine ⟨h1, h2.trans ?_⟩
                intro x hx
                rcases Finset.mem_union.mp hx with hx' | hx'
                · exact Finset.mem_union_left _ hx'
                · exact Finset.mem_union_right _ (Finset.mem_insert_of_mem hx')
              · constructor
                · exact (Finset.subset_insert c S).trans h1
                · intro x hx
                  rcases Finset.mem_union.mp (h2 hx) with hx' | hx'
                  · rcases Finset.mem_insert.mp hx' with rfl | hx''
                    · exact Finset.mem_union_right _ (Finset.mem_insert_self _ _)
                    · exact Finset.mem_union_left _ hx''
                  · exact Finset.mem_union_right _ (Finset.mem_insert_of_mem hx')

theorem foldlM_addKey_mem : ∀ (l : List filter) (S T : Finset Key) (c : Key),
    List.foldlM addKey S l = .ok T → c ∈ candSet l →
    c.dropLast ∉ S → c.dropLast ∉ candSet l → c ∈ T := by
  intro l
  induction l with
  | nil => intro S T c _ hc _ _; simp [candSet, candList] at hc
  | cons f l ih =>
      intro S T c h hc hdS hdC
      rw [List.foldlM_cons] at h
      cases hstep : addKey S f with
      | error e => rw [hstep, except_bind_error] at h; exact absurd h (by simp)
      | ok S₁ =>
          rw [hstep, except_bind_ok] at h
          unfold addKey at hstep
          cases hcf : candidateKey f with
          | error e => rw [hcf] at hstep; exact absurd hstep (by simp)
          | ok cf =>
              rw [hcf] at hstep
              rw [candSet_cons_ok hcf] at hc hdC
              rcases Finset.mem_insert.mp hc with rfl | hc'
              · simp only [if_neg hdS, Except.ok.injEq] at hstep
                subst hstep
                exact (foldlM_addKey_sub l _ T h).1 (Finset.mem_insert_self c S)
              · have hS₁ : S₁ = S ∨ S₁ = insert cf S := by
                  by_cases hd : cf.dropLast ∈ S
                  · left; simp only [if_pos hd, Except.ok.injEq] at hstep; exact hstep.symm
                  · right; simp only [if_neg hd, Except.ok.injEq] at hstep; exact hstep.symm
                apply ih S₁ T c h hc'
                · intro hmem
                  rcases hS₁ with rfl | rfl
                  · exact hdS hmem
                  · rcases Finset.mem_insert.mp hmem with heq | hS
                    · exact hdC (by rw [heq]; exact Finset.mem_insert_self cf _)
                    · exact hdS hS
                · intro hmem
                  exact hdC (Finset.mem_insert_of_mem hmem)

theorem foldlM_addKey_ok_iff : ∀ (l : List filter) (S : Finset Key),
    (∃ T, List.foldlM addKey S l = .ok T) ↔ ∀ f ∈ l, ∃ k, candidateKey f = .ok k := by
  intro l
  induction l with
  | nil =>
      intro S
      simp only [List.foldlM_nil, List.not_mem_nil, false_implies, implies_true, iff_true]
      exact ⟨S, rfl⟩
  | cons f l ih =>
      intro S
      rw [List.foldlM_cons]
      cases hstep : addKey S f with
      | error e =>
          simp only [hstep, except_bind_error]
          constructor
          · rintro ⟨T, hT⟩; exact absurd hT (by simp)
          · intro hall
            obtain ⟨k, hk⟩ := hall f (List.mem_cons_self f l)
            unfold addKey at hstep
            rw [hk] at hstep
            by_cases hd : k.dropLast ∈ S <;> simp [hd] at hstep
      | ok S₁ =>
          simp only [hstep, except_bind_ok]
          rw [ih S₁]
          constructor
          · intro hall g hg
            rcases List.mem_cons.mp hg with rfl | hg'
            · unfold addKey at hstep
              cases hcf : candidateKey g with
              | error e => rw [hcf] at hstep; exact absurd hstep (by simp)
              | ok k => exact ⟨k, rfl⟩
            · exact hall g hg'
          · intro hall g hg
            exact hall g (List.mem_cons_of_mem f hg)

theorem foldlM_addKey_error : ∀ (l : List filter) (S : Finset Key) (e : Err),
    List.foldlM addKey S l = .error e → e = .typeAssertionError := by
  intro l
  induction l with
  | nil =>
      intro S e h
      simp only [List.foldlM_nil, pure, Except.pure] at h
      exact absurd h (by simp)
  | cons f l ih =>
      intro S e h
      rw [List.foldlM_cons] at h
      cases hstep : addKey S f with
      | error e' =>
          rw [hstep, except_bind_error] at h
          have he : e' = e := by simpa using h
          subst he
          unfold addKey at hstep
          cases hcf : candidateKey f with
          | error e'' =>
              rw [hcf] at hstep
              have : e'' = e' := by simpa using hstep
              exact this ▸ candidateKey_error hcf
          | ok k =>
              rw [hcf] at hstep
              by_cases hd : k.dropLast ∈ S <;> simp [hd] at hstep
      | ok S₁ =>
          rw [hstep, except_bind_ok] at h
          exact ih S₁ e h

theorem mem_minimize {keys : Finset Key} {k : Key} :
    k ∈ minimize keys ↔ k ∈ keys ∧ ∀ a ∈ keys, a <+: k → a = k := by
  simp [minimize, Finset.mem_filter]

theorem minimize_sub (keys : Finset Key) : minimize keys ⊆ keys :=
  Finset.filter_subset _ keys

theorem length_lt_of_proper {a c : Key} (hpre : a <+: c) (hne : a ≠ c) :
    a.length < c.length := by
  rcases Nat.lt_or_ge a.length c.length with h | h
  · exact h
  · exact absurd (hpre.eq_of_length (Nat.le_antisymm hpre.length_le h)) hne

theorem minimize_cover_aux {keys : Finset Key} :
    ∀ (n : Nat) (c : Key), c.length < n → c ∈ keys → ∃ a ∈ minimize keys, a <+: c := by
  intro n
  induction n with
  | zero => intro c hlen _; omega
  | succ m ih =>
      intro c hlen hc
      by_cases h : ∀ a ∈ keys, a <+: c → a = c
      · exact ⟨c, mem_minimize.mpr ⟨hc, h⟩, List.prefix_refl c⟩
      · push_neg at h
        obtain ⟨a, ha, hpre, hne⟩ := h
        have hlt : a.length < c.length := length_lt_of_proper hpre hne
        obtain ⟨b, hb, hbpre⟩ := ih a (by omega) ha
        exact ⟨b, hb, hbpre.trans hpre⟩

theorem minimize_cover {keys : Finset Key} {c : Key} (hc : c ∈ keys) :
    ∃ a ∈ minimize keys, a <+: c :=
  minimize_cover_aux (c.length + 1) c (Nat.lt_succ_self _) hc

theorem minimize_squeeze {C T : Finset Key} (h1 : minimize C ⊆ T) (h2 : T ⊆ C) :
    minimize T = minimize C := by
  ext k
  constructor
  · intro hk
    obtain ⟨hkT, hmin⟩ := mem_minimize.mp hk
    refine mem_minimize.mpr ⟨h2 hkT, ?_⟩
    intro a ha hpre
    by_contra hne
    obtain ⟨m, hm, hmpre⟩ := minimize_cover ha
    have hmk : m = k := hmin m (h1 hm) (hmpre.trans hpre)
    subst hmk
    exact hne (hpre.eq_of_length (Nat.le_antisymm hpre.length_le hmpre.length_le))
  · intro hk
    obtain ⟨hkC, hmin⟩ := mem_minimize.mp hk
    refine mem_minimize.mpr ⟨h1 hk, ?_⟩
    intro a ha hpre
    exact hmin a (h2 ha) hpre

theorem insertSorted_perm (f : filter) :
    ∀ (l : List filter), (insertSorted f l).Perm (f :: l) := by
  intro l
  induction l with
  | nil => simp [insertSorted]
  | cons g gs ih =>
      unfold insertSorted
      by_cases h : f.filterType ≤ g.filterType
      · rw [if_pos h]
      · rw [if_neg h]
        exact (ih.cons g).trans (List.Perm.swap f g gs)

theorem sortFilters_perm : ∀ (l : List filter), (sortFilters l).Perm l := by
  intro l
  induction l with
  | nil => simp [sortFilters]
  | cons f fs ih =>
      simpa [sortFilters] using (insertSorted_perm f (sortFilters fs)).trans (ih.cons f)

theorem getKeys_nil : getKeysFromFilters [] = .ok {KvdbKey} := by decide

theorem getKeys_ok_of_ne_nil {fs : List filter} {ks : Finset Key} (hne : fs ≠ [])
    (h : getKeysFromFilters fs = .ok ks) : ks = minimize (candSet fs) := by
  unfold getKeysFromFilters at h
  rw [if_pos (List.length_pos.mpr hne)] at h
  cases hfold : List.foldlM addKey (∅ : Finset Key) (sortFilters fs) with
  | error e => rw [hfold] at h; exact absurd h (by simp)
  | ok T =>
      rw [hfold] at h
      simp only [Except.ok.injEq] at h
      obtain ⟨-, hsub⟩ := foldlM_addKey_sub (sortFilters fs) ∅ T hfold
      have h2 : T ⊆ candSet (sortFilters fs) := by
        intro x hx
        rcases Finset.mem_union.mp (hsub hx) with hx' | hx'
        · exact absurd hx' (Finset.not_mem_empty x)
        · exact hx'
      have h1 : minimize (candSet (sortFilters fs)) ⊆ T := by
        intro c hc
        obtain ⟨hcC, hmin⟩ := mem_minimize.mp hc
        apply foldlM_addKey_mem (sortFilters fs) ∅ T c hfold hcC (Finset.not_mem_empty _)
        intro hmem
        obtain ⟨f, -, hf⟩ := mem_candSet.mp hcC
        have hcne : c ≠ [] := candidateKey_ne_nil hf
        have heq : c.dropLast = c := hmin c.dropLast hmem (List.dropLast_prefix c)
        have hlen := congrArg List.length heq
        rw [List.length_dropLast] at hlen
        have : 0 < c.length := List.length_pos.mpr hcne
        omega
      rw [← h, minimize_squeeze h1 h2, candSet_perm (sortFilters_perm fs)]

theorem getKeys_error {fs : List filter} {e : Err}
    (h : getKeysFromFilters fs = .error e) : e = .typeAssertionError := by
  unfold getKeysFromFilters at h
  by_cases hl : 0 < fs.length
  · rw [if_pos hl] at h
    cases hfold : List.foldlM addKey (∅ : Finset Key) (sortFilters fs) with
    | error e' =>
        rw [hfold] at h
        have : e' = e := by simpa using h
        exact this ▸ foldlM_addKey_error (sortFilters fs) ∅ e' hfold
    | ok T => rw [hfold] at h; exact absurd h (by simp)
  · rw [if_neg hl] at h
    exact absurd h (by simp)

theorem getKeys_ok_iff {fs : List filter} :
    (∃ ks, getKeysFromFilters fs = .ok ks) ↔ ∀ f ∈ fs, ∃ k, candidateKey f = .ok k := by
  by_cases hl : 0 < fs.length
  · have hiff := foldlM_addKey_ok_iff (sortFilters fs) ∅
    constructor
    · rintro ⟨ks, hks⟩ f hf
      unfold getKeysFromFilters at hks
      rw [if_pos hl] at hks
      cases hfold : List.foldlM addKey (∅ : Finset Key) (sortFilters fs) with
      | error e => rw [hfold] at hks; exact absurd hks (by simp)
      | ok T =>
          exact hiff.mp ⟨T, hfold⟩ f ((sortFilters_perm fs).mem_iff.mpr hf)
    · intro hall
      obtain ⟨T, hT⟩ := hiff.mpr fun f hf => hall f ((sortFilters_perm fs).mem_iff.mp hf)
      refine ⟨minimize T, ?_⟩
      unfold getKeysFromFilters
      rw [if_pos hl, hT]
  · have : fs = [] := List.length_eq_zero.mp (by omega)
    subst this
    simp only [List.not_mem_nil, false_implies, implies_true, iff_true]
    exact ⟨{KvdbKey}, getKeys_nil⟩

/-- Reduction of filter.Match for a Custom filter. -/
theorem Match_custom {f : filter} (h : f.filterType = CustomFilter) (a : Alert) :
    filter.Match f a = match f.value with
      | .vFunc v => v a
      | _ => .error .typeAssertionError := by
  simp [filter.Match, h, CustomFilter]

/-- Reduction of filter.Match for a Time filter. -/
theorem Match_time {f : filter} (h : f.filterType = TimeFilter) (a : Alert) :
    filter.Match f a = match f.value with
      | .vTimeZone v =>
          if v.start ≤ a.timestampSeconds ∧ a.timestampSeconds ≤ v.stop then
            .ok true
          else
            .ok false
      | _ => .error .typeAssertionError := by
  simp [filter.Match, h, CustomFilter, TimeFilter]

/-- Reduction of filter.Match for an AlertType filter. -/
theorem Match_alertType {f : filter} (h : f.filterType = AlertTypeFilter) (a : Alert) :
    filter.Match f a = match f.value with
      | .vInt64 v => if a.alertType = v then .ok true else .ok false
      | _ => .error .typeAssertionError := by
  simp [filter.Match, h, CustomFilter, TimeFilter, AlertTypeFilter]

/-- Reduction of filter.Match for a ResourceID filter. -/
theorem Match_resourceId {f : filter} (h : f.filterType = ResourceIDFilter) (a : Alert) :
    filter.Match f a = match f.value with
      | .vString v => if a.resourceId = v then .ok true else .ok false
      | _ => .error .typeAssertionError := by
  simp [filter.Match, h, CustomFilter, TimeFilter, AlertTypeFilter, ResourceIDFilter]

/-- Reduction of filter.Match for a Count filter. -/
theorem Match_count {f : filter} (h : f.filterType = CountFilter) (a : Alert) :
    filter.Match f a = match f.value with
      | .vInt64 v => if a.count = v then .ok true else .ok false
      | _ => .error .typeAssertionError := by
  simp [filter.Match, h, CustomFilter, TimeFilter, AlertTypeFilter, ResourceIDFilter,
    CountFilter]

/-- Reduction of filter.Match for a QueryResourceType filter. -/
theorem Match_qrt {f : filter} (h : f.filterType = QueryResourceTypeFilter) (a : Alert) :
    filter.Match f a = match f.value with
      | .vResourceType v => if a.resource = v then .ok true else .ok false
      | _ => .error .typeAssertionError := by
  simp [filter.Match, h, CustomFilter, TimeFilter, AlertTypeFilter, ResourceIDFilter,
    CountFilter, QueryResourceTypeFilter]

/-- Reduction of filter.Match for a QueryAlertType filter. -/
theorem Match_qat {f : filter} (h : f.filterType = QueryAlertTypeFilter) (a : Alert) :
    filter.Match f a = match f.value with
      | .vAlertInfo v =>
          if a.alertType = v.alertType ∧ a.resource = v.resourceType then
            .ok true
          else
            .ok false
      | _ => .error .typeAssertionError := by
  simp [filter.Match, h, CustomFilter, TimeFilter, AlertTypeFilter, ResourceIDFilter,
    CountFilter, QueryResourceTypeFilter, QueryAlertTypeFilter]

/-- Reduction of filter.Match for a QueryResourceID filter. -/
theorem Match_qrid {f : filter} (h : f.filterType = QueryResourceIDFilter) (a : Alert) :
    filter.Match f a = match f.value with
      | .vAlertInfo v =>
          if a.alertType = v.alertType ∧ a.resource = v.resourceType ∧
              a.resourceId = v.resourceID then
            .ok true
          else
            .ok false
      | _ => .error .typeAssertionError := by
  simp [filter.Match, h, CustomFilter, TimeFilter, AlertTypeFilter, ResourceIDFilter,
    CountFilter, QueryResourceTypeFilter, QueryAlertTypeFilter, QueryResourceIDFilter]

/-- Reduction of filter.Match for a filter type outside the registry. -/
theorem Match_unknown {f : filter} (h : ¬ isRegisteredType f.filterType) (a : Alert) :
    filter.Match f a = .error .invalidFilterType := by
  simp only [isRegisteredType, not_or] at h
  obtain ⟨h0, h1, h2, h3, h4, h5, h6, h7⟩ := h
  simp [filter.Match, h0, h1, h2, h3, h4, h5, h6, h7]

theorem ok_true_iff {c : Prop} [Decidable c] :
    ((if c then (Except.ok true : Except Err Bool) else .ok false) = .ok true) ↔ c := by
  split <;> simp_all

theorem candidateKey_shapes {f : filter} {k : Key} (h : candidateKey f = .ok k) :
    k = KvdbKey ∨ (∃ v, k = KvdbKey ++ [rtString v]) ∨
      (∃ v : alertInfo, k = KvdbKey ++ [rtString v.resourceType, hexInt v.alertType]) ∨
      (∃ v : alertInfo,
        k = KvdbKey ++ [rtString v.resourceType, hexInt v.alertType, v.resourceID]) := by
  unfold candidateKey at h
  split_ifs at h
  · cases hv : f.value <;> rw [hv] at h <;>
      try exact absurd h (fun hcontra => Except.noConfusion hcontra)
    rename_i v
    exact Or.inr (Or.inl ⟨v, (Except.ok.inj h).symm⟩)
  · cases hv : f.value <;> rw [hv] at h <;>
      try exact absurd h (fun hcontra => Except.noConfusion hcontra)
    rename_i v
    exact Or.inr (Or.inr (Or.inl ⟨v, (Except.ok.inj h).symm⟩))
  · cases hv : f.value <;> rw [hv] at h <;>
      try exact absurd h (fun hcontra => Except.noConfusion hcontra)
    rename_i v
    exact Or.inr (Or.inr (Or.inr ⟨v, (Except.ok.inj h).symm⟩))
  · exact Or.inl (Except.ok.inj h).symm

theorem minimize_no_overlap {keys : Finset Key} {k1 k2 : Key}
    (h1 : k1 ∈ minimize keys) (h2 : k2 ∈ minimize keys) (hpre : k1 <+: k2) :
    k1 = k2 :=
  (mem_minimize.mp h2).2 k1 (minimize_sub keys h1) hpre

/-- C1: for every filter sequence, key derivation removes every candidate key
that has another candidate key as a proper ancestor path and some most general
ancestor of each candidate is retained; in the concrete scenario
Derive([QueryResourceType(Volume), QueryAlertType{alertType:5,
resourceType:Volume}]) the result retains the resource-type key
<root>/Volume and drops the deeper key. -/
theorem c1_minimization_retains_ancestor :
    getKeysFromFilters [qrtVolume, qatVolume5] = .ok {KvdbKey ++ ["Volume"]} ∧
    ∀ (fs : List filter) (ks : Finset Key), getKeysFromFilters fs = .ok ks →
      ∀ c ∈ candSet fs,
        ((∃ a ∈ candSet fs, a <+: c ∧ a ≠ c) → c ∉ ks) ∧ (∃ k ∈ ks, k <+: c) := by
  constructor
  · decide
  · intro fs ks h c hc
    have hne : fs ≠ [] := by
      rintro rfl
      simp [candSet, candList] at hc
    have hchar := getKeys_ok_of_ne_nil hne h
    subst hchar
    constructor
    · rintro ⟨a, ha, hpre, hane⟩ hcks
      exact hane ((mem_minimize.mp hcks).2 a ha hpre)
    · exact minimize_cover hc

/-- Witness for C1 at the spec's concrete scenario: the deeper candidate key
<root>/Volume/5 is dropped while its retained ancestor <root>/Volume covers
it. -/
theorem c1_witness :
    ((∃ a ∈ candSet [qrtVolume, qatVolume5],
        a <+: KvdbKey ++ ["Volume", hexInt 5] ∧ a ≠ KvdbKey ++ ["Volume", hexInt 5]) →
      (KvdbKey ++ ["Volume", hexInt 5]) ∉ ({KvdbKey ++ ["Volume"]} : Finset Key)) ∧
    (∃ k ∈ ({KvdbKey ++ ["Volume"]} : Finset Key), k <+: KvdbKey ++ ["Volume", hexInt 5]) :=
  c1_minimization_retains_ancestor.2 [qrtVolume, qatVolume5] {KvdbKey ++ ["Volume"]}
    (by decide) (KvdbKey ++ ["Volume", hexInt 5]) (by decide)

/-- C4: no two distinct keys of a successfully derived key set stand in a
proper ancestor-path relation (the no-overlap invariant). -/
theorem c4_no_overlap (fs : List filter) (ks : Finset Key)
    (h : getKeysFromFilters fs = .ok ks) :
    ∀ k1 ∈ ks, ∀ k2 ∈ ks, k1 <+: k2 → k1 = k2 := by
  intro k1 hk1 k2 hk2 hpre
  by_cases hne : fs = []
  · subst hne
    rw [getKeys_nil] at h
    have hks : ks = {KvdbKey} := by simpa using h.symm
    subst hks
    rw [Finset.mem_singleton.mp hk1, Finset.mem_singleton.mp hk2]
  · have hchar := getKeys_ok_of_ne_nil hne h
    subst hchar
    exact minimize_no_overlap hk1 hk2 hpre

/-- Witness for C4 on a two-key derivation result. -/
theorem c4_witness :
    getKeysFromFilters
        [⟨QueryAlertTypeFilter, .vAlertInfo ⟨5, .volume, ""⟩⟩,
         ⟨QueryAlertTypeFilter, .vAlertInfo ⟨7, .volume, ""⟩⟩] =
      .ok {KvdbKey ++ ["Volume", hexInt 5], KvdbKey ++ ["Volume", hexInt 7]} ∧
    (KvdbKey ++ ["Volume", hexInt 5] : Key) = KvdbKey ++ ["Volume", hexInt 5] := by
  refine ⟨by decide, ?_⟩
  exact c4_no_overlap
    [⟨QueryAlertTypeFilter, .vAlertInfo ⟨5, .volume, ""⟩⟩,
     ⟨QueryAlertTypeFilter, .vAlertInfo ⟨7, .volume, ""⟩⟩]
    {KvdbKey ++ ["Volume", hexInt 5], KvdbKey ++ ["Volume", hexInt 7]}
    (by decide) (KvdbKey ++ ["Volume", hexInt 5]) (by decide)
    (KvdbKey ++ ["Volume", hexInt 5]) (by decide) (List.prefix_refl _)

/-- C5: a filter sequence with no query-capable filter (in particular the
empty sequence, or Custom-only sequences) derives exactly the singleton root
key set. -/
theorem c5_no_query_capable (fs : List filter) (h : ∀ f ∈ fs, ¬ isQueryCapable f) :
    getKeysFromFilters fs = .ok {KvdbKey} := by
  by_cases hne : fs = []
  · subst hne; exact getKeys_nil
  · have hall : ∀ f ∈ fs, ∃ k, candidateKey f = .ok k :=
      fun f hf => ⟨KvdbKey, candidateKey_not_qc (h f hf)⟩
    obtain ⟨ks, hks⟩ := getKeys_ok_iff.mpr hall
    have hchar := getKeys_ok_of_ne_nil hne hks
    have hcs : candSet fs = {KvdbKey} := by
      apply Finset.ext
      intro c
      simp only [mem_candSet, Finset.mem_singleton]
      constructor
      · rintro ⟨f, hf, hc⟩
        rw [candidateKey_not_qc (h f hf)] at hc
        exact (Except.ok.inj hc).symm
      · rintro rfl
        obtain ⟨f, hf⟩ := List.exists_mem_of_ne_nil fs hne
        exact ⟨f, hf, candidateKey_not_qc (h f hf)⟩
    rw [hcs] at hchar
    have hmin : minimize {KvdbKey} = {KvdbKey} := by decide
    rw [hks, hchar, hmin]

/-- Witness for C5: a single Custom filter derives the root key alone. -/
theorem c5_witness : getKeysFromFilters [customTrue] = .ok {KvdbKey} :=
  c5_no_query_capable [customTrue] (by
    intro f hf
    simp only [List.mem_singleton] at hf
    subst hf
    decide)

/-- C6: key derivation is invariant under reordering of the input filter
sequence — two filter sequences equal as multisets of (kind, payload) values
derive identical results (key set or error alike). -/
theorem c6_order_invariance (fs gs : List filter) (h : fs.Perm gs) :
    getKeysFromFilters fs = getKeysFromFilters gs := by
  by_cases hne : fs = []
  · subst hne
    rw [(h.symm.eq_nil : gs = [])]
  · have hgne : gs ≠ [] := by
      intro hg
      subst hg
      exact hne h.eq_nil
    cases hfs : getKeysFromFilters fs with
    | ok ks =>
        have hex : ∀ f ∈ gs, ∃ k, candidateKey f = .ok k :=
          fun f hf => getKeys_ok_iff.mp ⟨ks, hfs⟩ f (h.mem_iff.mpr hf)
        obtain ⟨ks', hks'⟩ := getKeys_ok_iff.mpr hex
        rw [hks']
        rw [getKeys_ok_of_ne_nil hne hfs, getKeys_ok_of_ne_nil hgne hks', candSet_perm h]
    | error e =>
        cases hgs : getKeysFromFilters gs with
        | ok ks' =>
            have hex : ∀ f ∈ fs, ∃ k, candidateKey f = .ok k :=
              fun f hf => getKeys_ok_iff.mp ⟨ks', hgs⟩ f (h.mem_iff.mp hf)
            obtain ⟨ks, hks⟩ := getKeys_ok_iff.mpr hex
            rw [hks] at hfs
            exact absurd hfs (by simp)
        | error e' =>
            rw [getKeys_error hfs, getKeys_error hgs]

/-- Witness for C6: swapping the two query filters of the C1 scenario leaves
the derived key set unchanged. -/
theorem c6_witness :
    getKeysFromFilters [qrtVolume, qatVolume5] =
      getKeysFromFilters [qatVolume5, qrtVolume] :=
  c6_order_invariance [qrtVolume, qatVolume5] [qatVolume5, qrtVolume]
    (List.Perm.swap qatVolume5 qrtVolume [])

/-- C10: a successful key derivation never returns the empty key set. -/
theorem c10_result_nonempty (fs : List filter) (ks : Finset Key)
    (h : getKeysFromFilters fs = .ok ks) : ks.Nonempty := by
  by_cases hne : fs = []
  · subst hne
    rw [getKeys_nil] at h
    have hks : ks = {KvdbKey} := by simpa using h.symm
    subst hks
    exact ⟨KvdbKey, Finset.mem_singleton_self _⟩
  · have hchar := getKeys_ok_of_ne_nil hne h
    obtain ⟨f, hf⟩ := List.exists_mem_of_ne_nil fs hne
    obtain ⟨k, hk⟩ := getKeys_ok_iff.mp ⟨ks, h⟩ f hf
    have hkC : k ∈ candSet fs := mem_candSet.mpr ⟨f, hf, hk⟩
    obtain ⟨a, ha, -⟩ := minimize_cover hkC
    exact ⟨a, hchar ▸ ha⟩

/-- Witness for C10 at the empty filter sequence. -/
theorem c10_witness : ({KvdbKey} : Finset Key).Nonempty :=
  c10_result_nonempty [] {KvdbKey} (by decide)

/-- C8: a Time filter with a shape-conformant payload matches exactly the
alerts whose timestamp lies in the closed interval from start to stop, both
bounds inclusive. -/
theorem c8_time_interval_inclusive (start stop : Int) (a : Alert) :
    filter.Match ⟨TimeFilter, .vTimeZone ⟨start, stop⟩⟩ a = .ok true ↔
      start ≤ a.timestampSeconds ∧ a.timestampSeconds ≤ stop := by
  rw [Match_time rfl]
  exact ok_true_iff

/-- C2 counterexample: the key derived for a QueryResourceID filter lists the
alert-type component (hex "5") before the resource-id component ("vol1"), not
after it as the spec's schema sentence orders them, and it is not a prefix of
the spec-ordered schema path. -/
theorem c2_counterexample :
    getKeysFromFilters [qridVolume5] =
      .ok {KvdbKey ++ [rtString .volume, hexInt 5, "vol1"]} ∧
    (KvdbKey ++ [rtString .volume, hexInt 5, "vol1"] : Key) ≠
      KvdbKey ++ [rtString .volume, "vol1", hexInt 5] ∧
    ¬ (KvdbKey ++ [rtString .volume, hexInt 5, "vol1"] : Key) <+:
        specOrderKeyPath .volume "vol1" 5 := by
  decide

/-- C2 (amended): every key a successful derivation returns is a path-prefix
of the store key schema as the code lays it out —
<root>/<resourceType>/<alertType hex>/<resourceId>/data — so for
QueryResourceId filters the alert-type component precedes the resource-id
component. -/
theorem c2_keys_follow_code_schema (fs : List filter) (ks : Finset Key)
    (h : getKeysFromFilters fs = .ok ks) :
    ∀ k ∈ ks, ∃ rt aty rid, k <+: storeKeyPath rt aty rid := by
  intro k hk
  by_cases hne : fs = []
  · subst hne
    rw [getKeys_nil] at h
    have hks : ks = {KvdbKey} := by simpa using h.symm
    subst hks
    rw [Finset.mem_singleton.mp hk]
    exact ⟨.volume, 0, "", ⟨[rtString .volume, hexInt 0, "", "data"], rfl⟩⟩
  · have hchar := getKeys_ok_of_ne_nil hne h
    subst hchar
    have hkC : k ∈ candSet fs := minimize_sub _ hk
    obtain ⟨f, hf, hkf⟩ := mem_candSet.mp hkC
    rcases candidateKey_shapes hkf with rfl | ⟨v, rfl⟩ | ⟨v, rfl⟩ | ⟨v, rfl⟩
    · exact ⟨.volume, 0, "", ⟨[rtString .volume, hexInt 0, "", "data"], rfl⟩⟩
    · exact ⟨v, 0, "", ⟨[hexInt 0, "", "data"], by simp [storeKeyPath]⟩⟩
    · exact ⟨v.resourceType, v.alertType, "", ⟨["", "data"], by simp [storeKeyPath]⟩⟩
    · exact ⟨v.resourceType, v.alertType, v.resourceID, ⟨["data"], by simp [storeKeyPath]⟩⟩

/-- Witness for the amended C2 at a concrete QueryResourceID derivation. -/
theorem c2_witness :
    ∃ rt aty rid,
      (KvdbKey ++ [rtString .volume, hexInt 5, "vol1"] : Key) <+:
        storeKeyPath rt aty rid :=
  c2_keys_follow_code_schema [qridVolume5]
    {KvdbKey ++ [rtString .volume, hexInt 5, "vol1"]} (by decide)
    (KvdbKey ++ [rtString .volume, hexInt 5, "vol1"]) (by decide)

/-- C3 counterexample: with the alert's full key path read literally from the
spec's schema sentence (resource id before alert type), completeness fails:
the alert matches the only query-capable filter, yet no derived key is a
prefix of that spec-ordered path. -/
theorem c3_counterexample :
    getKeysFromFilters [qatVolume5] =
      .ok {KvdbKey ++ [rtString .volume, hexInt 5]} ∧
    (∀ f ∈ [qatVolume5], isQueryCapable f → filter.Match f alertVol5 = .ok true) ∧
    ¬ ∃ k ∈ ({KvdbKey ++ [rtString .volume, hexInt 5]} : Finset Key),
        k <+: specAlertKeyPath alertVol5 := by
  decide

/-- C3 (amended): completeness holds with the alert's full key path laid out
as the derivation code builds keys (alert type before resource id): whenever
derivation succeeds and an alert matches every query-capable filter of the
sequence per Match, some derived key is a path-prefix of the alert's full key
path. -/
theorem c3_completeness (a : Alert) (fs : List filter) (ks : Finset Key)
    (h : getKeysFromFilters fs = .ok ks)
    (hmatch : ∀ f ∈ fs, isQueryCapable f → filter.Match f a = .ok true) :
    ∃ k ∈ ks, k <+: alertKeyPath a := by
  by_cases hne : fs = []
  · subst hne
    rw [getKeys_nil] at h
    have hks : ks = {KvdbKey} := by simpa using h.symm
    subst hks
    exact ⟨KvdbKey, Finset.mem_singleton_self _,
      ⟨[rtString a.resource, hexInt a.alertType, a.resourceId, "data"], rfl⟩⟩
  · obtain ⟨f, hf⟩ := List.exists_mem_of_ne_nil fs hne
    obtain ⟨c, hc⟩ := getKeys_ok_iff.mp ⟨ks, h⟩ f hf
    have hcpre : c <+: alertKeyPath a := by
      by_cases hqc : isQueryCapable f
      · have hm := hmatch f hf hqc
        rcases hqc with h5 | h6 | h7
        · rw [candidateKey_qrt h5] at hc
          rw [Match_qrt h5] at hm
          cases hv : f.value <;> rw [hv] at hc hm <;>
            try exact absurd hc (fun hcontra => Except.noConfusion hcontra)
          rename_i v
          have hm' : (if a.resource = v then (Except.ok true : Except Err Bool)
              else .ok false) = .ok true := hm
          have hres : a.resource = v := ok_true_iff.mp hm'
          have hc' : Except.ok (KvdbKey ++ [rtString v]) = Except.ok c := hc
          rw [((Except.ok.inj hc').symm : c = KvdbKey ++ [rtString v]), ← hres]
          exact ⟨[hexInt a.alertType, a.resourceId, "data"],
            by simp [alertKeyPath, storeKeyPath]⟩
        · rw [candidateKey_qat h6] at hc
          rw [Match_qat h6] at hm
          cases hv : f.value <;> rw [hv] at hc hm <;>
            try exact absurd hc (fun hcontra => Except.noConfusion hcontra)
          rename_i v
          have hm' : (if a.alertType = v.alertType ∧ a.resource = v.resourceType then
              (Except.ok true : Except Err Bool) else .ok false) = .ok true := hm
          obtain ⟨hat, hres⟩ := ok_true_iff.mp hm'
          have hc' : Except.ok (KvdbKey ++ [rtString v.resourceType, hexInt v.alertType]) =
              Except.ok c := hc
          rw [((Except.ok.inj hc').symm :
              c = KvdbKey ++ [rtString v.resourceType, hexInt v.alertType]), ← hres, ← hat]
          exact ⟨[a.resourceId, "data"], by simp [alertKeyPath, storeKeyPath]⟩
        · rw [candidateKey_qrid h7] at hc
          rw [Match_qrid h7] at hm
          cases hv : f.value <;> rw [hv] at hc hm <;>
            try exact absurd hc (fun hcontra => Except.noConfusion hcontra)
          rename_i v
          have hm' : (if a.alertType = v.alertType ∧ a.resource = v.resourceType ∧
                a.resourceId = v.resourceID then
              (Except.ok true : Except Err Bool) else .ok false) = .ok true := hm
          obtain ⟨hat, hres, hrid⟩ := ok_true_iff.mp hm'
          have hc' : Except.ok
              (KvdbKey ++ [rtString v.resourceType, hexInt v.alertType, v.resourceID]) =
              Except.ok c := hc
          rw [((Except.ok.inj hc').symm :
              c = KvdbKey ++ [rtString v.resourceType, hexInt v.alertType, v.resourceID]),
            ← hres, ← hat, ← hrid]
          exact ⟨["data"], by simp [alertKeyPath, storeKeyPath]⟩
      · rw [candidateKey_not_qc hqc] at hc
        rw [((Except.ok.inj hc).symm : c = KvdbKey)]
        exact ⟨[rtString a.resource, hexInt a.alertType, a.resourceId, "data"], rfl⟩
    have hcC : c ∈ candSet fs := mem_candSet.mpr ⟨f, hf, hc⟩
    have hchar := getKeys_ok_of_ne_nil hne h
    subst hchar
    obtain ⟨m, hm, hmpre⟩ := minimize_cover hcC
    exact ⟨m, hm, hmpre.trans hcpre⟩

/-- Witness for the amended C3 at the concrete QueryAlertType scenario. -/
theorem c3_witness :
    ∃ k ∈ ({KvdbKey ++ [rtString .volume, hexInt 5]} : Finset Key),
      k <+: alertKeyPath alertVol5 :=
  c3_completeness alertVol5 [qatVolume5]
    {KvdbKey ++ [rtString .volume, hexInt 5]} (by decide) (by decide)

/-- C7 counterexample: a Custom filter whose kind is registered and whose
payload is shape-conformant (a predicate function), yet Match fails with the
ValueShapeMismatch error value because the caller-supplied predicate returns
it verbatim — so "Match fails with ValueShapeMismatch exactly when the
payload does not have the required shape" is false as stated. -/
theorem c7_counterexample :
    isRegisteredType customShapeErr.filterType ∧
    conformsTo customShapeErr.filterType customShapeErr.value = true ∧
    filter.Match customShapeErr ⟨0, .none, "", 0, 0⟩ = .error .typeAssertionError := by
  refine ⟨by decide, rfl, rfl⟩

/-- C7 (amended): for every non-Custom filter, Match fails with
ValueShapeMismatch exactly when the filter's kind is registered but its
payload does not have the shape that kind requires, and fails with
UnknownFilterKind exactly when the kind is outside the closed registry of
eight kinds; for a Custom filter a non-conformant payload also yields
ValueShapeMismatch, while a conformant payload hands evaluation verbatim to
the caller-supplied predicate (which may itself return either error value). -/
theorem c7_error_taxonomy (f : filter) (a : Alert) :
    (f.filterType ≠ CustomFilter →
      ((filter.Match f a = .error .typeAssertionError ↔
          isRegisteredType f.filterType ∧ conformsTo f.filterType f.value = false) ∧
        (filter.Match f a = .error .invalidFilterType ↔
          ¬ isRegisteredType f.filterType))) ∧
    (f.filterType = CustomFilter →
      (conformsTo f.filterType f.value = false →
          filter.Match f a = .error .typeAssertionError) ∧
        ∀ p, f.value = .vFunc p → filter.Match f a = p a) := by
  constructor
  · intro hnc
    by_cases h1 : f.filterType = TimeFilter
    · rw [Match_time h1]
      refine ⟨?_, ?_⟩ <;>
        (cases hv : f.value <;>
          simp [hv, h1, conformsTo, isRegisteredType, CustomFilter, TimeFilter,
            AlertTypeFilter, ResourceIDFilter, CountFilter, QueryResourceTypeFilter,
            QueryAlertTypeFilter, QueryResourceIDFilter] <;>
          (try split) <;> simp_all)
    by_cases h2 : f.filterType = AlertTypeFilter
    · rw [Match_alertType h2]
      refine ⟨?_, ?_⟩ <;>
        (cases hv : f.value <;>
          simp [hv, h2, conformsTo, isRegisteredType, CustomFilter, TimeFilter,
            AlertTypeFilter, ResourceIDFilter, CountFilter, QueryResourceTypeFilter,
            QueryAlertTypeFilter, QueryResourceIDFilter] <;>
          (try split) <;> simp_all)
    by_cases h3 : f.filterType = ResourceIDFilter
    · rw [Match_resourceId h3]
      refine ⟨?_, ?_⟩ <;>
        (cases hv : f.value <;>
          simp [hv, h3, conformsTo, isRegisteredType, CustomFilter, TimeFilter,
            AlertTypeFilter, ResourceIDFilter, CountFilter, QueryResourceTypeFilter,
            QueryAlertTypeFilter, QueryResourceIDFilter] <;>
          (try split) <;> simp_all)
    by_cases h4 : f.filterType = CountFilter
    · rw [Match_count h4]
      refine ⟨?_, ?_⟩ <;>
        (cases hv : f.value <;>
          simp [hv, h4, conformsTo, isRegisteredType, CustomFilter, TimeFilter,
            AlertTypeFilter, ResourceIDFilter, CountFilter, QueryResourceTypeFilter,
            QueryAlertTypeFilter, QueryResourceIDFilter] <;>
          (try split) <;> simp_all)
    by_cases h5 : f.filterType = QueryResourceTypeFilter
    · rw [Match_qrt h5]
      refine ⟨?_, ?_⟩ <;>
        (cases hv : f.value <;>
          simp [hv, h5, conformsTo, isRegisteredType, CustomFilter, TimeFilter,
            AlertTypeFilter, ResourceIDFilter, CountFilter, QueryResourceTypeFilter,
            QueryAlertTypeFilter, QueryResourceIDFilter] <;>
          (try split) <;> simp_all)
    by_cases h6 : f.filterType = QueryAlertTypeFilter
    · rw [Match_qat h6]
      refine ⟨?_, ?_⟩ <;>
        (cases hv : f.value <;>
          simp [hv, h6, conformsTo, isRegisteredType, CustomFilter, TimeFilter,
            AlertTypeFilter, ResourceIDFilter, CountFilter, QueryResourceTypeFilter,
            QueryAlertTypeFilter, QueryResourceIDFilter] <;>
          (try split) <;> simp_all)
    by_cases h7 : f.filterType = QueryResourceIDFilter
    · rw [Match_qrid h7]
      refine ⟨?_, ?_⟩ <;>
        (cases hv : f.value <;>
          simp [hv, h7, conformsTo, isRegisteredType, CustomFilter, TimeFilter,
            AlertTypeFilter, ResourceIDFilter, CountFilter, QueryResourceTypeFilter,
            QueryAlertTypeFilter, QueryResourceIDFilter] <;>
          (try split) <;> simp_all)
    have hreg : ¬ isRegisteredType f.filterType := by
      simp only [isRegisteredType, not_or]
      exact ⟨hnc, h1, h2, h3, h4, h5, h6, h7⟩
    rw [Match_unknown hreg]
    exact ⟨by simp [hreg], by simp [hreg]⟩
  · intro hcust
    constructor
    · intro hbad
      rw [Match_custom hcust]
      cases hv : f.value <;> try rfl
      exfalso
      rw [hcust, hv] at hbad
      simp [conformsTo, CustomFilter] at hbad
    · intro p hp
      rw [Match_custom hcust, hp]

/-- Witness for the amended C7: a Time filter with an int payload raises
ValueShapeMismatch, and a filter of unknown kind 42 raises UnknownFilterKind. -/
theorem c7_witness :
    filter.Match ⟨TimeFilter, .vInt64 0⟩ ⟨0, .none, "", 0, 0⟩ =
        .error .typeAssertionError ∧
      filter.Match ⟨42, .vInt64 0⟩ ⟨0, .none, "", 0, 0⟩ = .error .invalidFilterType :=
  ⟨((c7_error_taxonomy ⟨TimeFilter, .vInt64 0⟩ ⟨0, .none, "", 0, 0⟩).1
      (by decide)).1.mpr ⟨by decide, rfl⟩,
    ((c7_error_taxonomy ⟨42, .vInt64 0⟩ ⟨0, .none, "", 0, 0⟩).1
      (by decide)).2.mpr (by decide)⟩

end alerts
